import Mathlib

/-!
Verification development for the MTG label generator's layout and
compositing engine (`src/services/helpers.py`, `src/services/pdf_generator.py`,
`config.py`).

Modelling conventions:
- Python `str` values are modelled as `List Char` (`PyStr`); Python slicing,
  `len`, concatenation and `.upper()` become the corresponding list operations.
- Python `float` quantities (widths, coordinates, font sizes) are modelled as
  exact rationals `ℚ`.
- `reportlab`'s `canvas.stringWidth` is an external text-measurement function;
  it is modelled as an abstract parameter `stringWidth : PyStr → PyStr → ℚ → ℚ`
  (text, font name, font size).  Glyph resolution (`get_symbol_file`,
  `_get_mana_symbol_file`) performs network and filesystem I/O and is modelled
  as an abstract oracle returning `Option` of a local file path.
- The `while` loop of `fit_text_to_width` is modelled with explicit fuel;
  each iteration strips one character, so `text.length` units of fuel give
  exactly the Python semantics.
- `OrderedDict` caches are modelled as association lists, oldest entry first;
  `popitem(last=False)` removes the head, insertion of a fresh key appends at
  the tail.  `popitem` on an empty dict raises `KeyError`, modelled by
  `Option`/`none`.
-/

abbrev PyStr := List Char

/-- The ellipsis `"..."` appended by the truncating helpers. -/
def ellipsis : PyStr := "...".toList

/-- Modelled from config.py: `MAX_SET_NAME_LENGTH = 32`. -/
def MAX_SET_NAME_LENGTH : Nat := 32

/-- Modelled from config.py: the curated long-name → short-name pairs of
`ABBREVIATION_MAP` (the file's literal entries). -/
def ABBREVIATION_MAP : List (PyStr × PyStr) :=
  [(("Adventures in the Forgotten Realms Minigames").toList,
    ("Forgotten Realms Minigames").toList),
   (("Adventures in the Forgotten Realms").toList, ("Forgotten Realms").toList),
   (("Zendikar Rising Commander").toList, ("CMDR Zendikar Rising").toList)]

/-- Embedding of `helpers.abbreviate_set_name`: curated map lookup first,
then truncation to `MAX_SET_NAME_LENGTH - 3` characters plus `"..."` when the
name is longer than `MAX_SET_NAME_LENGTH`, otherwise unchanged. -/
def abbreviate_set_name (set_name : PyStr) : PyStr :=
  match ABBREVIATION_MAP.lookup set_name with
  | some short => short
  | none =>
    if MAX_SET_NAME_LENGTH < set_name.length then
      set_name.take (MAX_SET_NAME_LENGTH - 3) ++ ellipsis
    else
      set_name

/-- Embedding of the `while` loop of `helpers.fit_text_to_width`.
`text_width` holds the most recently measured width (initially of the whole
text, afterwards of `current_text + "..."`); each iteration drops the last
character.  The loop runs at most `current_text.length` times because it stops
on the empty string, so the fuel given by the caller is exact. -/
def fitLoop (sw : PyStr → ℚ) (max_width : ℚ) : Nat → PyStr → ℚ → PyStr
  | 0, current_text, _ => current_text
  | fuel + 1, current_text, text_width =>
    if max_width < text_width ∧ current_text ≠ [] then
      let shorter := current_text.dropLast
      fitLoop sw max_width fuel shorter (sw (shorter ++ ellipsis))
    else current_text

/-- Embedding of `helpers.fit_text_to_width`: truncate `text` until it (plus
`"..."`) measures within `max_width`; append `"..."` exactly when truncation
occurred.  `sw` is the `canvas.stringWidth` measurement at the font and size
the caller fixed. -/
def fit_text_to_width (sw : PyStr → ℚ) (text : PyStr) (max_width : ℚ) : PyStr :=
  let current_text := fitLoop sw max_width text.length text (sw text)
  if current_text ≠ text then current_text ++ ellipsis else current_text

/-- A concrete text-measurement function (a font in which every character is
one point wide): used to instantiate the abstract `stringWidth`. -/
def unit_width_font (s : PyStr) : ℚ := s.length

/-- Embedding of a `LABEL_TEMPLATES` entry from config.py: the named sheet
geometry, all dimensions in points. -/
structure LabelTemplate where
  page_width : ℚ
  page_height : ℚ
  labels_per_row : Nat
  label_rows : Nat
  label_width : ℚ
  label_height : ℚ
  label_margin_x : ℚ
  label_margin_y : ℚ
  left_margin : ℚ
  top_margin : ℚ
  horizontal_gap : ℚ
  vertical_gap : ℚ
deriving DecidableEq

/-- Modelled from config.py: `FONT_SIZE_ROW1 = 11`. -/
def FONT_SIZE_ROW1 : ℚ := 11

/-- Modelled from config.py: `FONT_SIZE_ROW2 = 10`. -/
def FONT_SIZE_ROW2 : ℚ := 10

/-- Modelled from config.py: `SET_SYMBOL_MAX_WIDTH = 30`. -/
def SET_SYMBOL_MAX_WIDTH : ℚ := 30

/-- Modelled from config.py: the `"avery5160"` template
(fields in declaration order of `LabelTemplate`). -/
def avery5160 : LabelTemplate :=
  ⟨612, 792, 3, 10, 189, 72, 7.2, 1, 13.5, 54, 9, 0⟩

/-- Modelled from config.py: the `"a4"` template. -/
def a4_template : LabelTemplate :=
  ⟨595.2, 841.8, 3, 8, 595.2 / 3, 841.8 / 8, 7.2, 7.2, 10, 30, 5, 5⟩

/-- Modelled from config.py: `LABEL_TEMPLATES` as an association list. -/
def LABEL_TEMPLATES : List (PyStr × LabelTemplate) :=
  [(("avery5160").toList, avery5160), (("a4").toList, a4_template)]

/-- Modelled from config.py: `CURRENT_LABEL_TEMPLATE = "avery5160"`. -/
def CURRENT_LABEL_TEMPLATE : PyStr := "avery5160".toList

/-- Embedding of the template-key resolution of `PDFGenerator.__init__`:
`template_key = template_name or CURRENT_LABEL_TEMPLATE` (Python `or` treats
`None` and `""` as falsy), then fall back to `CURRENT_LABEL_TEMPLATE` with a
logged warning when the key is not in `LABEL_TEMPLATES`.  The `Bool` component
records whether the warning was logged. -/
def pdfgen_template_key (template_name : Option PyStr) : PyStr × Bool :=
  let template_key :=
    match template_name with
    | some s => if s = [] then CURRENT_LABEL_TEMPLATE else s
    | none => CURRENT_LABEL_TEMPLATE
  match LABEL_TEMPLATES.lookup template_key with
  | some _ => (template_key, false)
  | none => (CURRENT_LABEL_TEMPLATE, true)

/-- The template actually selected by `PDFGenerator.__init__`
(`self.template = LABEL_TEMPLATES[template_key]`). -/
def pdfgen_template (template_name : Option PyStr) : Option LabelTemplate :=
  LABEL_TEMPLATES.lookup (pdfgen_template_key template_name).1

/-- Month names produced by `strftime("%B ...")` in the C locale. -/
def MONTH_NAMES : List PyStr :=
  [("January").toList, ("February").toList, ("March").toList, ("April").toList,
   ("May").toList, ("June").toList, ("July").toList, ("August").toList,
   ("September").toList, ("October").toList, ("November").toList,
   ("December").toList]

/-- Decimal value of an all-digit string (used by the `strptime` model). -/
def parseDigits (s : PyStr) : Option Nat :=
  if s ≠ [] ∧ s.all Char.isDigit then
    some (s.foldl (fun n c => 10 * n + (c.toNat - 48)) 0)
  else none

/-- Gregorian leap-year rule, as used by `datetime`. -/
def isLeapYear (y : Nat) : Bool :=
  (y % 4 == 0 && y % 100 != 0) || y % 400 == 0

/-- Number of days of a month, as validated by `datetime`. -/
def daysInMonth (y m : Nat) : Nat :=
  if m = 2 then (if isLeapYear y then 29 else 28)
  else if m = 4 ∨ m = 6 ∨ m = 9 ∨ m = 11 then 30
  else 31

/-- Embedding of `datetime.datetime.strptime(s, "%Y-%m-%d")`: `%Y` matches
exactly four digits, `%m` and `%d` one or two digits, the whole string must be
consumed, and `datetime` validation requires `1 ≤ year`, `1 ≤ month ≤ 12` and
`1 ≤ day ≤ daysInMonth`.  Failure (Python's `ValueError`) is `none`. -/
def strptime_Ymd (s : PyStr) : Option (Nat × Nat × Nat) :=
  match s.splitOn '-' with
  | [ys, ms, ds] =>
    match parseDigits ys, parseDigits ms, parseDigits ds with
    | some y, some m, some d =>
      if ys.length = 4 ∧ (ms.length = 1 ∨ ms.length = 2)
          ∧ (ds.length = 1 ∨ ds.length = 2)
          ∧ 1 ≤ y ∧ 1 ≤ m ∧ m ≤ 12 ∧ 1 ≤ d ∧ d ≤ daysInMonth y m then
        some (y, m, d)
      else none
    | _, _, _ => none
  | _ => none

/-- Embedding of `date_obj.strftime("%B %Y")`: full month name, a space, and
the year in decimal. -/
def strftime_BY (y m : Nat) : PyStr :=
  MONTH_NAMES.getD (m - 1) [] ++ (" ").toList ++ (toString y).toList

/-- Embedding of the release-date block of `PDFGenerator._draw_label`
(lines 314–325): an empty or missing `released_at` yields `""`; otherwise the
string is parsed with `strptime("%Y-%m-%d")` and formatted as `"%B %Y"`, and a
`ValueError` falls back to the raw string verbatim. -/
def release_date_string (released_at : Option PyStr) : PyStr :=
  match released_at with
  | none => []
  | some raw =>
    if raw = [] then []
    else
      match strptime_Ymd raw with
      | some (y, m, _) => strftime_BY y m
      | none => raw

/-- Python `str.upper()` on the character lists we use. -/
def pyUpper (s : PyStr) : PyStr := s.map Char.toUpper

/-- Embedding of `text_line2 = f"{set_code} - {release_date_str}"` with
`set_code = set_data.get("code", "").upper()`. -/
def text_line2_sets (code : PyStr) (released_at : Option PyStr) : PyStr :=
  pyUpper code ++ (" - ").toList ++ release_date_string released_at

/-- The fields of a label item's data dictionary that `_draw_label` reads
(`name`, `code`, `released_at` for sets; `type`, `color` for card types).
Missing dictionary keys are `none` / the documented defaults. -/
structure SetData where
  name : PyStr
  code : PyStr
  released_at : Option PyStr
  typ : Option PyStr
  color : Option PyStr

/-- A label item: the `"__placeholder__"` marker makes `_draw_label` return
before drawing anything; every other dictionary is a content item. -/
inductive LabelItem
  | placeholder
  | content (set_data : SetData)

/-- Canvas instructions emitted while drawing, in order.  `showPage` is the
page break; the rest are the drawing instructions of `_draw_label`
(`_draw_symbol` and its SVG/raster renderers are abstracted into a single
`drawSymbol` instruction carrying the glyph's file path). -/
inductive CanvasOp
  | showPage
  | setFont (font : PyStr) (size : ℚ)
  | setFillColorRGB (r g b : ℚ)
  | drawString (x y : ℚ) (text : PyStr)
  | drawSymbol (path : PyStr)
deriving DecidableEq

/-- External collaborators of the layout engine: the text measurement of
`canvas.stringWidth` (text, font name, font size) and the glyph resolvers
`get_symbol_file` / `_get_mana_symbol_file`, which perform I/O and may fail
(`none`). -/
structure RenderEnv where
  stringWidth : PyStr → PyStr → ℚ → ℚ
  symbolFile : SetData → Option PyStr
  manaSymbolFile : PyStr → Option PyStr

/-- Modelled from `PDFGenerator.__init__`:
`text_block_height = FONT_SIZE_ROW1 + FONT_SIZE_ROW2 + 4`. -/
def text_block_height : ℚ := FONT_SIZE_ROW1 + FONT_SIZE_ROW2 + 4

/-- Modelled from `PDFGenerator.__init__`:
`SYMBOL_AREA_WIDTH = text_block_height + 10`. -/
def SYMBOL_AREA_WIDTH : ℚ := text_block_height + 10

/-- Embedding of `PDFGenerator._draw_label`: the list of canvas instructions
drawn for one item at running index `current_label`.  A placeholder emits
nothing.  Geometry, the narrow-label symbol-width heuristic, the text fitting
and both view modes follow the source; the symbol renderers are abstracted
into one `drawSymbol` instruction. -/
def draw_label (env : RenderEnv) (t : LabelTemplate) (view_mode : PyStr)
    (current_label : Nat) (item : LabelItem) : List CanvasOp :=
  match item with
  | .placeholder => []
  | .content set_data =>
    let label_index := current_label
    let row : Nat := label_index / t.labels_per_row
    let col : Nat := label_index % t.labels_per_row
    let label_x : ℚ := t.left_margin + (col : ℚ) * (t.label_width + t.horizontal_gap)
    let label_top : ℚ :=
      t.page_height - t.top_margin - (row : ℚ) * (t.label_height + t.vertical_gap)
    let text_x : ℚ := label_x + t.label_margin_x
    let text_y : ℚ := label_top - t.label_margin_y
    let effective_symbol_width : ℚ :=
      if 60 ≤ t.label_width then SET_SYMBOL_MAX_WIDTH
      else min SET_SYMBOL_MAX_WIDTH (t.label_width * 0.4)
    let padding : ℚ := if 60 ≤ t.label_width then 5 else 3
    let symbol_area_start : ℚ :=
      label_x + t.label_width - t.label_margin_x - effective_symbol_width - padding
    let max_text_width0 : ℚ := symbol_area_start - text_x
    let max_text_width : ℚ :=
      if max_text_width0 ≤ 0 then max 10 (t.label_width - SYMBOL_AREA_WIDTH - 20)
      else max_text_width0
    if view_mode = ("types").toList then
      let card_type := (set_data.typ).getD set_data.name
      let color := (set_data.color).getD []
      let fitted_name := fit_text_to_width
        (fun s => env.stringWidth s (("EBGaramondBold").toList) FONT_SIZE_ROW1)
        card_type max_text_width
      let fitted_line2 := fit_text_to_width
        (fun s => env.stringWidth s (("SourceSansProRegular").toList) FONT_SIZE_ROW2)
        color max_text_width
      [CanvasOp.setFont (("EBGaramondBold").toList) FONT_SIZE_ROW1,
       CanvasOp.setFillColorRGB 0 0 0,
       CanvasOp.drawString text_x text_y fitted_name]
      ++ (if fitted_line2 ≠ [] then
            [CanvasOp.setFont (("SourceSansProRegular").toList) FONT_SIZE_ROW2,
             CanvasOp.drawString text_x (text_y - FONT_SIZE_ROW1 - 4) fitted_line2]
          else [])
      ++ (match env.manaSymbolFile color with
          | some f => [CanvasOp.drawSymbol f]
          | none => [])
    else
      let fitted_name := fit_text_to_width
        (fun s => env.stringWidth s (("EBGaramondBold").toList) FONT_SIZE_ROW1)
        (abbreviate_set_name set_data.name) max_text_width
      let fitted_line2 := fit_text_to_width
        (fun s => env.stringWidth s (("SourceSansProRegular").toList) FONT_SIZE_ROW2)
        (text_line2_sets set_data.code set_data.released_at) max_text_width
      [CanvasOp.setFont (("EBGaramondBold").toList) FONT_SIZE_ROW1,
       CanvasOp.setFillColorRGB 0 0 0,
       CanvasOp.drawString text_x text_y fitted_name,
       CanvasOp.setFont (("SourceSansProRegular").toList) FONT_SIZE_ROW2,
       CanvasOp.drawString text_x (text_y - FONT_SIZE_ROW1 - 4) fitted_line2]
      ++ (match env.symbolFile set_data with
          | some f => [CanvasOp.drawSymbol f]
          | none => [])

/-- The mutable state of `PDFGenerator.generate`: the running label index,
the `labels_processed` counter, and the canvas instruction trace. -/
structure GenState where
  current_label : Nat
  labels_processed : Nat
  ops : List CanvasOp

/-- Page capacity `labels_per_page = labels_per_row * label_rows`. -/
def labels_per_page (t : LabelTemplate) : Nat := t.labels_per_row * t.label_rows

/-- Embedding of one iteration of the loop in `PDFGenerator.generate`:
the page-break check runs BEFORE drawing (`showPage` and index reset when the
index has reached the page capacity), then `_draw_label` runs at the (possibly
reset) index, then `current_label` and `labels_processed` are incremented.
The periodic SVG-cache maintenance of the same loop body touches only the
module-level cache and is modelled separately (`svg_cache_maintenance`). -/
def generate_step (env : RenderEnv) (t : LabelTemplate) (view_mode : PyStr)
    (st : GenState) (item : LabelItem) : GenState :=
  let cur := if st.current_label = labels_per_page t then 0 else st.current_label
  let ops0 := if st.current_label = labels_per_page t
              then st.ops ++ [CanvasOp.showPage] else st.ops
  ⟨cur + 1, st.labels_processed + 1, ops0 ++ draw_label env t view_mode cur item⟩

/-- Embedding of the loop of `PDFGenerator.generate` over the selected items,
starting from a fresh canvas (`current_label = 0`, no instructions). -/
def generate (env : RenderEnv) (t : LabelTemplate) (view_mode : PyStr)
    (items : List LabelItem) : GenState :=
  items.foldl (generate_step env t view_mode) ⟨0, 0, []⟩

/-- Number of `showPage` instructions in a trace. -/
def countShowPages : List CanvasOp → Nat
  | [] => 0
  | op :: rest => (if op = CanvasOp.showPage then 1 else 0) + countShowPages rest

/-- Number of pages of the produced document: each `showPage` ends one page,
and `canvas.save()` emits the final in-progress page, so a document with `k`
`showPage` instructions has `k + 1` pages (a fresh canvas saved with no
instructions at all is one blank page). -/
def num_pages (st : GenState) : Nat := countShowPages st.ops + 1

/-- Embedding of the scale computation of `PDFGenerator._draw_svg_symbol`
(lines 556–567): a non-positive intrinsic height is clamped to 1, the scale
factor is `min(target_height / intrinsic_height,
effective_max_width / intrinsic_width)`, and the result is the pair
`(scaled_width, scaled_symbol_height)`. -/
def draw_svg_symbol_scaled (target_height effective_max_width
    intrinsic_width intrinsic_height : ℚ) : ℚ × ℚ :=
  let h := if intrinsic_height ≤ 0 then 1 else intrinsic_height
  let scale_from_height := target_height / h
  let scale_from_width := effective_max_width / intrinsic_width
  let scale_factor := min scale_from_height scale_from_width
  (intrinsic_width * scale_factor, h * scale_factor)

/-- Embedding of `popitem(last=False)` guarded by a non-empty check, as in the
cache-clearing loop of `generate` (`if _svg_drawing_cache:` then pop): on an
empty dict it is a no-op. -/
def pop_oldest {α : Type} (cache : List (PyStr × α)) : List (PyStr × α) :=
  match cache with
  | [] => []
  | _ :: rest => rest

/-- The `for _ in range(items_to_remove)` loop of `generate`'s cache
maintenance: pop the guarded oldest entry `n` times. -/
def pop_oldest_iter {α : Type} : Nat → List (PyStr × α) → List (PyStr × α)
  | 0, cache => cache
  | n + 1, cache => pop_oldest_iter n (pop_oldest cache)

/-- Embedding of the periodic SVG-cache maintenance in `PDFGenerator.generate`
(lines 161–168): when the cache size exceeds `cache_max_size * 0.8`, pop the
oldest entry `cache_max_size // 2` times. -/
def svg_cache_maintenance {α : Type} (cache_max_size : Nat)
    (cache : List (PyStr × α)) : List (PyStr × α) :=
  if (cache_max_size : ℚ) * 0.8 < (cache.length : ℚ) then
    pop_oldest_iter (cache_max_size / 2) cache
  else cache

/-- Embedding of `OrderedDict` assignment `cache[key] = val`: an existing key
keeps its position and gets the new value; a fresh key is appended at the
(most-recently-used) end. -/
def ordered_dict_set {α : Type} (key : PyStr) (val : α) :
    List (PyStr × α) → List (PyStr × α)
  | [] => [(key, val)]
  | (k, v) :: rest =>
    if k = key then (k, val) :: rest
    else (k, v) :: ordered_dict_set key val rest

/-- Embedding of `PDFGenerator._cache_svg_drawing`: when the cache is at or
above capacity, `popitem(last=False)` evicts the oldest entry first (raising
`KeyError`, i.e. `none`, if the dict is empty), then the drawing is stored at
the most-recently-used end. -/
def cache_svg_drawing {α : Type} (cache_max_size : Nat) (key : PyStr) (val : α)
    (cache : List (PyStr × α)) : Option (List (PyStr × α)) :=
  if cache_max_size ≤ cache.length then
    match cache with
    | [] => none
    | _ :: rest => some (ordered_dict_set key val rest)
  else some (ordered_dict_set key val cache)

/-- Embedding of `OrderedDict.move_to_end`: the entry with the given key is
moved to the (most-recently-used) end, other entries keep their order. -/
def move_to_end {α : Type} (key : PyStr) (cache : List (PyStr × α)) :
    List (PyStr × α) :=
  match cache.find? (fun e => e.1 == key) with
  | some e => cache.eraseP (fun e => e.1 == key) ++ [e]
  | none => cache

/-- Embedding of `PDFGenerator._get_cached_svg_drawing`: on a hit the entry is
moved to the most-recently-used end and its value returned, on a miss the
cache is untouched and `None` returned. -/
def get_cached_svg_drawing {α : Type} (key : PyStr)
    (cache : List (PyStr × α)) : Option α × List (PyStr × α) :=
  if (cache.find? (fun e => e.1 == key)).isSome then
    let moved := move_to_end key cache
    (moved.lookup key, moved)
  else (none, cache)

/-- A concrete render environment for evaluating the engine: every string
measures zero points and no glyph resolves. -/
def trivialEnv : RenderEnv :=
  ⟨fun _ _ _ => 0, fun _ => none, fun _ => none⟩

/-- A concrete content item (the Kaldheim set). -/
def sampleSet : SetData :=
  ⟨("Kaldheim").toList, ("khm").toList, some (("2021-02-05").toList), none, none⟩

/-- A 40-character name with no entry in the abbreviation map. -/
def long_name : PyStr := List.replicate 40 'a'

/-- A concrete cache with ten entries (keys `"0"` … `"9"`), oldest first. -/
def cache_ten : List (PyStr × Nat) :=
  (List.range 10).map (fun i => (Nat.toDigits 10 i, i))

/-- Dropping the last element gives a prefix of the list. -/
lemma dropLast_isPrefix_self {α : Type} (l : List α) : l.dropLast <+: l := by
  rcases eq_or_ne l [] with h | h
  · simp [h]
  · exact ⟨[l.getLast h], List.dropLast_append_getLast h⟩

/-- Invariant of the truncation loop of `fit_text_to_width`: with enough fuel
the loop either returns its input untouched (because the measured width
already fits or the input is empty), or it returns a strictly shorter prefix
whose measured width together with `"..."` fits — unless every character was
stripped, in which case the empty prefix is returned regardless of width. -/
lemma fitLoop_spec (sw : PyStr → ℚ) (mw : ℚ) :
    ∀ (fuel : Nat) (cur : PyStr) (w : ℚ), cur.length ≤ fuel →
      (fitLoop sw mw fuel cur w = cur ∧ (w ≤ mw ∨ cur = []))
      ∨ ((fitLoop sw mw fuel cur w).length < cur.length
          ∧ fitLoop sw mw fuel cur w <+: cur
          ∧ (sw (fitLoop sw mw fuel cur w ++ ellipsis) ≤ mw
              ∨ fitLoop sw mw fuel cur w = [])) := by
  intro fuel
  induction fuel with
  | zero =>
    intro cur w hle
    have hcur : cur = [] := List.length_eq_zero.mp (Nat.le_zero.mp hle)
    subst hcur
    exact Or.inl ⟨rfl, Or.inr rfl⟩
  | succ fuel ih =>
    intro cur w hle
    by_cases hc : mw < w ∧ cur ≠ []
    · have hpos : 0 < cur.length := List.length_pos.mpr hc.2
      have hlendrop := List.length_dropLast cur
      have hlen : cur.dropLast.length ≤ fuel := by omega
      have hlt : cur.dropLast.length < cur.length := by omega
      have hstep : fitLoop sw mw (fuel + 1) cur w
          = fitLoop sw mw fuel cur.dropLast (sw (cur.dropLast ++ ellipsis)) := by
        simp only [fitLoop, if_pos hc]
      rcases ih cur.dropLast (sw (cur.dropLast ++ ellipsis)) hlen with
        ⟨heq, hd⟩ | ⟨h1, h2, h3⟩
      · rw [hstep, heq]
        exact Or.inr ⟨hlt, dropLast_isPrefix_self cur, hd⟩
      · rw [hstep]
        exact Or.inr ⟨h1.trans hlt, h2.trans (dropLast_isPrefix_self cur), h3⟩
    · have hstep : fitLoop sw mw (fuel + 1) cur w = cur := by
        simp only [fitLoop, if_neg hc]
      refine Or.inl ⟨hstep, ?_⟩
      rcases not_and_or.mp hc with h | h
      · exact Or.inl (not_lt.mp h)
      · exact Or.inr (not_not.mp h)

/-- Unfolding equation for `fit_text_to_width`. -/
lemma fit_text_to_width_def (sw : PyStr → ℚ) (text : PyStr) (mw : ℚ) :
    fit_text_to_width sw text mw =
      if fitLoop sw mw text.length text (sw text) ≠ text
      then fitLoop sw mw text.length text (sw text) ++ ellipsis
      else fitLoop sw mw text.length text (sw text) := rfl

/-- C1 (amended): for every text-measurement function, text and
`max_width ≥ 0`, the string returned by `fit_text_to_width` measures at most
`max_width`, or is empty, or is exactly the bare ellipsis `"..."` (returned
when every character was stripped and even `"..."` exceeds `max_width`; this
is also what a call with `max_width ≤ 0` and non-empty input returns, and the
function always terminates).  The original claim omitted the `"..."` case. -/
theorem fit_text_width_invariant (sw : PyStr → ℚ) (text : PyStr)
    (max_width : ℚ) (_hmw : 0 ≤ max_width) :
    sw (fit_text_to_width sw text max_width) ≤ max_width
    ∨ fit_text_to_width sw text max_width = []
    ∨ fit_text_to_width sw text max_width = ellipsis := by
  rw [fit_text_to_width_def]
  rcases fitLoop_spec sw max_width text.length text (sw text) le_rfl with
    ⟨heq, hd⟩ | ⟨h1, h2, h3⟩
  · rw [heq, if_neg (show ¬ text ≠ text from fun h => h rfl)]
    rcases hd with hd | hd
    · exact Or.inl hd
    · exact Or.inr (Or.inl hd)
  · have hne : fitLoop sw max_width text.length text (sw text) ≠ text := by
      intro h
      rw [h] at h1
      exact lt_irrefl _ h1
    rw [if_pos hne]
    rcases h3 with h3 | h3
    · exact Or.inl h3
    · rw [h3]
      exact Or.inr (Or.inr rfl)

/-- Witness for `fit_text_width_invariant` at a concrete input: the
one-point-per-character font, text `"AB"`, `max_width = 5`. -/
theorem fit_text_width_invariant_witness :
    (0 : ℚ) ≤ 5
    ∧ (unit_width_font (fit_text_to_width unit_width_font ("AB").toList 5) ≤ 5
        ∨ fit_text_to_width unit_width_font ("AB").toList 5 = []
        ∨ fit_text_to_width unit_width_font ("AB").toList 5 = ellipsis) :=
  ⟨by norm_num, fit_text_width_invariant unit_width_font (("AB").toList) 5 (by norm_num)⟩

/-- Counterexample to C1 as stated: in a font where every character is one
point wide, fitting `"A"` into `max_width = 0` returns `"..."`, whose measured
width (3) is not `≤ 0` and which is not the empty string. -/
theorem fit_text_width_claim_counterexample :
    fit_text_to_width unit_width_font ("A").toList 0 = ellipsis
    ∧ ¬ (unit_width_font (fit_text_to_width unit_width_font ("A").toList 0) ≤ 0
          ∨ fit_text_to_width unit_width_font ("A").toList 0 = []) := by
  decide

/-- C10: the string returned by `fit_text_to_width` is either the original
text or a (possibly empty) prefix of it with `"..."` appended; consequently
its length is at most `len(text) + 3` (and it contains no characters absent
from the input other than the ellipsis dots). -/
theorem fit_text_result_from_input (sw : PyStr → ℚ) (text : PyStr)
    (max_width : ℚ) :
    (fit_text_to_width sw text max_width = text
      ∨ ∃ p, p <+: text ∧ fit_text_to_width sw text max_width = p ++ ellipsis)
    ∧ (fit_text_to_width sw text max_width).length ≤ text.length + 3 := by
  rw [fit_text_to_width_def]
  rcases fitLoop_spec sw max_width text.length text (sw text) le_rfl with
    ⟨heq, _⟩ | ⟨h1, h2, _⟩
  · rw [heq, if_neg (show ¬ text ≠ text from fun h => h rfl)]
    exact ⟨Or.inl rfl, by omega⟩
  · have hne : fitLoop sw max_width text.length text (sw text) ≠ text := by
      intro h
      rw [h] at h1
      exact lt_irrefl _ h1
    rw [if_pos hne]
    refine ⟨Or.inr ⟨fitLoop sw max_width text.length text (sw text), h2, rfl⟩, ?_⟩
    have hel : ellipsis.length = 3 := rfl
    rw [List.length_append, hel]
    omega

/-- C4: `abbreviate_set_name` returns the curated mapping value whenever the
name is a key of the abbreviation map (precedence over truncation); otherwise
a name longer than `MAX_SET_NAME_LENGTH` (32) becomes its first
`MAX_SET_NAME_LENGTH - 3` characters followed by `"..."` — length exactly 32,
ending in `"..."` — and any other name is returned unchanged. -/
theorem abbreviate_set_name_spec (set_name : PyStr) :
    (∀ short, ABBREVIATION_MAP.lookup set_name = some short →
        abbreviate_set_name set_name = short)
    ∧ (ABBREVIATION_MAP.lookup set_name = none →
        MAX_SET_NAME_LENGTH < set_name.length →
        abbreviate_set_name set_name
            = set_name.take (MAX_SET_NAME_LENGTH - 3) ++ ellipsis
        ∧ (abbreviate_set_name set_name).length = MAX_SET_NAME_LENGTH
        ∧ ellipsis <:+ abbreviate_set_name set_name)
    ∧ (ABBREVIATION_MAP.lookup set_name = none →
        set_name.length ≤ MAX_SET_NAME_LENGTH →
        abbreviate_set_name set_name = set_name) := by
  refine ⟨?_, ?_, ?_⟩
  · intro short h
    simp [abbreviate_set_name, h]
  · intro hnone hlong
    have hdef : abbreviate_set_name set_name
        = set_name.take (MAX_SET_NAME_LENGTH - 3) ++ ellipsis := by
      simp [abbreviate_set_name, hnone, hlong]
    refine ⟨hdef, ?_, ?_⟩
    · rw [hdef, List.length_append, List.length_take]
      have hel : ellipsis.length = 3 := rfl
      have hmx : MAX_SET_NAME_LENGTH = 32 := rfl
      rw [hel, hmx]
      rw [hmx] at hlong
      omega
    · rw [hdef]
      exact List.suffix_append _ _
  · intro hnone hshort
    have h : ¬ MAX_SET_NAME_LENGTH < set_name.length := not_lt.mpr hshort
    simp [abbreviate_set_name, hnone, h]

/-- Witness for `abbreviate_set_name_spec`: a 40-character name with no map
entry is truncated to length 32 ending in `"..."` (the spec's Scenario C). -/
theorem abbreviate_set_name_spec_witness :
    ABBREVIATION_MAP.lookup long_name = none
    ∧ MAX_SET_NAME_LENGTH < long_name.length
    ∧ (abbreviate_set_name long_name).length = MAX_SET_NAME_LENGTH
    ∧ ellipsis <:+ abbreviate_set_name long_name :=
  ⟨by decide, by decide,
   ((abbreviate_set_name_spec long_name).2.1 (by decide) (by decide)).2.1,
   ((abbreviate_set_name_spec long_name).2.1 (by decide) (by decide)).2.2⟩

/-- C5: the second text line of a set label is `"{CODE} - {date}"` where the
date part is the release date parsed as ISO `YYYY-MM-DD` and formatted as
`"Month Year"` when parsing succeeds, and the raw string verbatim when parsing
fails (the `ValueError` is caught inside `_draw_label`; the model is total, so
no exception escapes). -/
theorem release_date_line (code raw : PyStr) (hne : raw ≠ []) :
    (∀ y m d, strptime_Ymd raw = some (y, m, d) →
        text_line2_sets code (some raw)
          = pyUpper code ++ (" - ").toList ++ strftime_BY y m)
    ∧ (strptime_Ymd raw = none →
        text_line2_sets code (some raw)
          = pyUpper code ++ (" - ").toList ++ raw) := by
  constructor
  · intro y m d hok
    simp [text_line2_sets, release_date_string, hne, hok]
  · intro hfail
    simp [text_line2_sets, release_date_string, hne, hfail]

/-- Witness for `release_date_line`: the malformed date `"invalid-date"`
appears verbatim in line 2 (the spec's Scenario D). -/
theorem release_date_line_witness :
    ("invalid-date").toList ≠ []
    ∧ strptime_Ymd (("invalid-date").toList) = none
    ∧ text_line2_sets (("khm").toList) (some (("invalid-date").toList))
        = pyUpper (("khm").toList) ++ (" - ").toList ++ ("invalid-date").toList :=
  ⟨by decide, by decide,
   (release_date_line (("khm").toList) (("invalid-date").toList) (by decide)).2
     (by decide)⟩

/-- C7: template lookup never fails generation: `pdfgen_template` always
resolves to a template; an unknown (non-empty) name falls back to the
configured default `"avery5160"` with the warning flag set, and a known name
selects exactly its own template. -/
theorem template_fallback_total (template_name : Option PyStr) :
    (pdfgen_template template_name).isSome = true
    ∧ (∀ s, template_name = some s → s ≠ [] →
        LABEL_TEMPLATES.lookup s = none →
        pdfgen_template_key template_name = (CURRENT_LABEL_TEMPLATE, true)
        ∧ pdfgen_template template_name = some avery5160)
    ∧ (∀ s tmpl, template_name = some s →
        LABEL_TEMPLATES.lookup s = some tmpl →
        pdfgen_template template_name = some tmpl) := by
  have hcur : LABEL_TEMPLATES.lookup CURRENT_LABEL_TEMPLATE = some avery5160 := rfl
  rcases template_name with _ | s
  · refine ⟨by decide, ?_, ?_⟩
    · intro s h
      cases h
    · intro s tmpl h
      cases h
  · by_cases hnil : s = []
    · subst hnil
      refine ⟨by decide, ?_, ?_⟩
      · intro s' heq hne _
        injection heq with h'
        exact absurd h'.symm hne
      · intro s' tmpl heq hlk
        injection heq with h'
        subst h'
        have hempty : LABEL_TEMPLATES.lookup ([] : PyStr) = none := by decide
        rw [hempty] at hlk
        cases hlk
    · cases hlk : LABEL_TEMPLATES.lookup s with
      | some tmpl =>
        have hkey : pdfgen_template_key (some s) = (s, false) := by
          simp [pdfgen_template_key, hnil, hlk]
        refine ⟨?_, ?_, ?_⟩
        · simp [pdfgen_template, hkey, hlk]
        · intro s' heq _ hlknone
          injection heq with h'
          subst h'
          rw [hlk] at hlknone
          cases hlknone
        · intro s' tmpl' heq hlk'
          injection heq with h'
          subst h'
          rw [hlk] at hlk'
          injection hlk' with h2
          subst h2
          simp [pdfgen_template, hkey, hlk]
      | none =>
        have hkey : pdfgen_template_key (some s) = (CURRENT_LABEL_TEMPLATE, true) := by
          simp [pdfgen_template_key, hnil, hlk]
        refine ⟨?_, ?_, ?_⟩
        · simp [pdfgen_template, hkey, hcur]
        · intro s' heq _ _
          injection heq with h'
          subst h'
          exact ⟨hkey, by simp [pdfgen_template, hkey, hcur]⟩
        · intro s' tmpl' heq hlk'
          injection heq with h'
          subst h'
          rw [hlk] at hlk'
          cases hlk'

/-- Witness for `template_fallback_total`: the unknown name `"bogus"` falls
back to the default template (the spec's Scenario F). -/
theorem template_fallback_total_witness :
    ("bogus").toList ≠ []
    ∧ LABEL_TEMPLATES.lookup (("bogus").toList) = none
    ∧ pdfgen_template_key (some (("bogus").toList)) = (CURRENT_LABEL_TEMPLATE, true)
    ∧ pdfgen_template (some (("bogus").toList)) = some avery5160 := by
  refine ⟨by decide, by decide, ?_, ?_⟩
  · exact ((template_fallback_total (some (("bogus").toList))).2.1
      (("bogus").toList) rfl (by decide) (by decide)).1
  · exact ((template_fallback_total (some (("bogus").toList))).2.1
      (("bogus").toList) rfl (by decide) (by decide)).2

/-- C3: for positive intrinsic dimensions and any target height and effective
maximum width, the scale factor `min(target_height / h, effective_max_width / w)`
of `_draw_svg_symbol` gives a scaled width at most `effective_max_width` and a
scaled height at most `target_height`, and preserves the aspect ratio
(`scaled_width * h = scaled_height * w`). -/
theorem symbol_scale_invariant (target_height effective_max_width w h : ℚ)
    (hw : 0 < w) (hh : 0 < h) :
    (draw_svg_symbol_scaled target_height effective_max_width w h).1
        ≤ effective_max_width
    ∧ (draw_svg_symbol_scaled target_height effective_max_width w h).2
        ≤ target_height
    ∧ (draw_svg_symbol_scaled target_height effective_max_width w h).1 * h
        = (draw_svg_symbol_scaled target_height effective_max_width w h).2 * w := by
  have hclamp : (if h ≤ 0 then (1 : ℚ) else h) = h := if_neg (not_le.mpr hh)
  simp only [draw_svg_symbol_scaled, hclamp]
  refine ⟨?_, ?_, by ring⟩
  · calc w * min (target_height / h) (effective_max_width / w)
        ≤ w * (effective_max_width / w) :=
          mul_le_mul_of_nonneg_left (min_le_right _ _) hw.le
      _ = effective_max_width := by field_simp
  · calc h * min (target_height / h) (effective_max_width / w)
        ≤ h * (target_height / h) :=
          mul_le_mul_of_nonneg_left (min_le_left _ _) hh.le
      _ = target_height := by field_simp

/-- Witness for `symbol_scale_invariant` at intrinsic 10×5, target height 25,
maximum width 30: scale 3 gives 30×15, inside both bounds. -/
theorem symbol_scale_invariant_witness :
    (0 : ℚ) < 10 ∧ (0 : ℚ) < 5
    ∧ ((draw_svg_symbol_scaled 25 30 10 5).1 ≤ 30
        ∧ (draw_svg_symbol_scaled 25 30 10 5).2 ≤ 25
        ∧ (draw_svg_symbol_scaled 25 30 10 5).1 * 5
            = (draw_svg_symbol_scaled 25 30 10 5).2 * 10) :=
  ⟨by norm_num, by norm_num,
   symbol_scale_invariant 25 30 10 5 (by norm_num) (by norm_num)⟩

/-- Counting page breaks distributes over trace concatenation. -/
lemma countShowPages_append (a b : List CanvasOp) :
    countShowPages (a ++ b) = countShowPages a + countShowPages b := by
  induction a with
  | nil => simp [countShowPages]
  | cons op rest ih =>
    have h1 : countShowPages (op :: (rest ++ b))
        = (if op = CanvasOp.showPage then 1 else 0) + countShowPages (rest ++ b) := rfl
    have h2 : countShowPages (op :: rest)
        = (if op = CanvasOp.showPage then 1 else 0) + countShowPages rest := rfl
    rw [List.cons_append, h1, ih, h2]
    omega

/-- A trace without `showPage` instructions has no page breaks. -/
lemma countShowPages_eq_zero (l : List CanvasOp)
    (h : ∀ op ∈ l, op ≠ CanvasOp.showPage) : countShowPages l = 0 := by
  induction l with
  | nil => rfl
  | cons op rest ih =>
    simp only [countShowPages]
    rw [if_neg (h op (List.mem_cons_self op rest))]
    simp [ih (fun o ho => h o (List.mem_cons_of_mem _ ho))]

/-- `_draw_label` never emits a page break: `showPage` is issued only by the
pagination check of `generate`. -/
lemma draw_label_no_showPage (env : RenderEnv) (t : LabelTemplate)
    (mode : PyStr) (cur : Nat) (item : LabelItem) :
    ∀ op ∈ draw_label env t mode cur item, op ≠ CanvasOp.showPage := by
  intro op hop hshow
  subst hshow
  cases item with
  | placeholder => simp [draw_label] at hop
  | content d =>
    simp only [draw_label] at hop
    split at hop
    · rcases List.mem_append.mp hop with h | h
      · rcases List.mem_append.mp h with h1 | h1
        · simp at h1
        · split at h1 <;> simp at h1
      · split at h <;> simp at h
    · rcases List.mem_append.mp hop with h | h
      · simp at h
      · split at h <;> simp at h

/-- Page-break count of the instructions of one label: zero. -/
lemma countShowPages_draw_label (env : RenderEnv) (t : LabelTemplate)
    (mode : PyStr) (cur : Nat) (item : LabelItem) :
    countShowPages (draw_label env t mode cur item) = 0 :=
  countShowPages_eq_zero _ (draw_label_no_showPage env t mode cur item)

/-- Processing one more item is one more step of the fold. -/
lemma generate_append (env : RenderEnv) (t : LabelTemplate) (mode : PyStr)
    (items : List LabelItem) (item : LabelItem) :
    generate env t mode (items ++ [item])
      = generate_step env t mode (generate env t mode items) item := by
  simp [generate, List.foldl_append]

/-- Loop invariant of `generate`: after processing `n ≥ 1` items with page
capacity `c > 0`, writing `n - 1 = q * c + r` with `r < c`, the running label
index is `r + 1` (never 0 after a draw) and exactly `q` page breaks were
emitted; `labels_processed` counts every item, placeholders included. -/
lemma generate_state_spec (env : RenderEnv) (t : LabelTemplate) (mode : PyStr)
    (hC : 0 < labels_per_page t) (items : List LabelItem) :
    (generate env t mode items).labels_processed = items.length
    ∧ (items ≠ [] → ∃ q r, r < labels_per_page t
        ∧ items.length - 1 = q * labels_per_page t + r
        ∧ (generate env t mode items).current_label = r + 1
        ∧ countShowPages (generate env t mode items).ops = q) := by
  induction items using List.reverseRecOn with
  | nil => exact ⟨rfl, fun h => absurd rfl h⟩
  | append_singleton l x ih =>
    rcases ih with ⟨ihlen, ihcons⟩
    have hgen := generate_append env t mode l x
    constructor
    · rw [hgen]
      show (generate env t mode l).labels_processed + 1 = (l ++ [x]).length
      rw [ihlen]
      simp
    · intro _
      by_cases hl : l = []
      · subst hl
        have h0 : ¬ ((0 : Nat) = labels_per_page t) := by omega
        refine ⟨0, 0, hC, by simp, ?_, ?_⟩
        · rw [hgen]
          show (if (generate env t mode []).current_label = labels_per_page t
                then 0 else (generate env t mode []).current_label) + 1 = 0 + 1
          simp [generate, h0]
        · rw [hgen]
          show countShowPages
              ((if (generate env t mode []).current_label = labels_per_page t
                then (generate env t mode []).ops ++ [CanvasOp.showPage]
                else (generate env t mode []).ops)
                ++ draw_label env t mode
                    (if (generate env t mode []).current_label = labels_per_page t
                     then 0 else (generate env t mode []).current_label) x) = 0
          rw [countShowPages_append, countShowPages_draw_label]
          simp [generate, h0, countShowPages]
      · obtain ⟨q, r, hr, hlen, hcur, hcount⟩ := ihcons hl
        have hlpos : 1 ≤ l.length := List.length_pos.mpr hl
        have hLl : l.length = q * labels_per_page t + r + 1 := by omega
        by_cases hfull : r + 1 = labels_per_page t
        · refine ⟨q + 1, 0, hC, ?_, ?_, ?_⟩
          · rw [Nat.succ_mul]
            simp only [List.length_append, List.length_singleton]
            omega
          · rw [hgen]
            show (if (generate env t mode l).current_label = labels_per_page t
                  then 0 else (generate env t mode l).current_label) + 1 = 0 + 1
            rw [hcur, if_pos hfull]
          · rw [hgen]
            show countShowPages
                ((if (generate env t mode l).current_label = labels_per_page t
                  then (generate env t mode l).ops ++ [CanvasOp.showPage]
                  else (generate env t mode l).ops)
                  ++ draw_label env t mode
                      (if (generate env t mode l).current_label = labels_per_page t
                       then 0 else (generate env t mode l).current_label) x) = q + 1
            rw [countShowPages_append, countShowPages_draw_label, hcur, if_pos hfull,
              countShowPages_append, hcount]
            simp [countShowPages]
        · have hne : (generate env t mode l).current_label ≠ labels_per_page t := by
            rw [hcur]
            exact hfull
          refine ⟨q, r + 1, by omega, ?_, ?_, ?_⟩
          · simp only [List.length_append, List.length_singleton]
            omega
          · rw [hgen]
            show (if (generate env t mode l).current_label = labels_per_page t
                  then 0 else (generate env t mode l).current_label) + 1 = r + 1 + 1
            rw [if_neg hne, hcur]
          · rw [hgen]
            show countShowPages
                ((if (generate env t mode l).current_label = labels_per_page t
                  then (generate env t mode l).ops ++ [CanvasOp.showPage]
                  else (generate env t mode l).ops)
                  ++ draw_label env t mode
                      (if (generate env t mode l).current_label = labels_per_page t
                       then 0 else (generate env t mode l).current_label) x) = q
            rw [countShowPages_append, countShowPages_draw_label, if_neg hne, hcount]
            omega

/-- C2: with page capacity `C = labels_per_row * label_rows > 0`, the document
generated for `N` items has exactly `ceil(N / C)` pages (`max 1 ...` makes
`N = 0` produce exactly one, possibly blank, page).  The page break is emitted
before drawing the overflowing label and resets the index at that moment only:
after processing `k ≥ 1` items the running index is `(k - 1) % C + 1`, never 0
(this formula holds for every prefix, since `items` is arbitrary).  Breaks
after the final draw would instead give `N / C` breaks at `N = C`; the proved
count `(N - 1) / C` confirms the break happens before the overflow draw. -/
theorem pagination_invariant (env : RenderEnv) (t : LabelTemplate)
    (mode : PyStr) (items : List LabelItem) (hC : 0 < labels_per_page t) :
    num_pages (generate env t mode items)
      = max 1 ((items.length + labels_per_page t - 1) / labels_per_page t)
    ∧ (items ≠ [] →
        (generate env t mode items).current_label
          = (items.length - 1) % labels_per_page t + 1)
    ∧ (generate env t mode items).labels_processed = items.length := by
  obtain ⟨hlen, hcons⟩ := generate_state_spec env t mode hC items
  by_cases hnil : items = []
  · subst hnil
    refine ⟨?_, fun h => absurd rfl h, hlen⟩
    have h1 : (List.length ([] : List LabelItem) + labels_per_page t - 1)
        / labels_per_page t = 0 := Nat.div_eq_of_lt (by simp; omega)
    rw [h1]
    show countShowPages ([] : List CanvasOp) + 1 = max 1 0
    rfl
  · obtain ⟨q, r, hr, hdecomp, hcur, hcount⟩ := hcons hnil
    have hlpos : 1 ≤ items.length := List.length_pos.mpr hnil
    refine ⟨?_, fun _ => ?_, hlen⟩
    · have hnum : num_pages (generate env t mode items) = q + 1 := by
        rw [num_pages, hcount]
      have hrc : (r + labels_per_page t) / labels_per_page t = 1 := by
        rw [Nat.add_div_right r hC, Nat.div_eq_of_lt hr]
      have hsplit : items.length + labels_per_page t - 1
          = labels_per_page t * q + (r + labels_per_page t) := by
        have : items.length = q * labels_per_page t + r + 1 := by omega
        rw [Nat.mul_comm]
        omega
      have hdiv : (items.length + labels_per_page t - 1) / labels_per_page t
          = q + 1 := by
        rw [hsplit, Nat.mul_add_div hC, hrc]
      rw [hnum, hdiv]
      omega
    · have hmod : (items.length - 1) % labels_per_page t = r := by
        rw [hdecomp, Nat.mul_comm, Nat.mul_add_mod, Nat.mod_eq_of_lt hr]
      rw [hcur, hmod]

/-- Witness for `pagination_invariant`: one placeholder item on the Avery 5160
template (capacity 30) produces exactly one page and one processed label. -/
theorem pagination_invariant_witness :
    0 < labels_per_page avery5160
    ∧ num_pages (generate trivialEnv avery5160 (("sets").toList)
        [LabelItem.placeholder]) = 1
    ∧ (generate trivialEnv avery5160 (("sets").toList)
        [LabelItem.placeholder]).labels_processed = 1 := by
  have h := pagination_invariant trivialEnv avery5160 (("sets").toList)
    [LabelItem.placeholder] (by decide)
  refine ⟨by decide, ?_, h.2.2⟩
  rw [h.1]
  decide

/-- C6: a placeholder item advances the running label index and the
`labels_processed` counter by exactly 1 — the same as a content item — but
`_draw_label` emits no drawing instruction for it, so away from a page
boundary the canvas trace is unchanged (at a boundary only the page-break
`showPage` of `generate`, not a draw, is emitted). -/
theorem placeholder_transparency (env : RenderEnv) (t : LabelTemplate)
    (mode : PyStr) (st : GenState) (d : SetData) :
    (∀ idx, draw_label env t mode idx LabelItem.placeholder = [])
    ∧ (generate_step env t mode st LabelItem.placeholder).current_label
        = (generate_step env t mode st (LabelItem.content d)).current_label
    ∧ (generate_step env t mode st LabelItem.placeholder).labels_processed
        = st.labels_processed + 1
    ∧ (generate_step env t mode st (LabelItem.content d)).labels_processed
        = st.labels_processed + 1
    ∧ (st.current_label ≠ labels_per_page t →
        (generate_step env t mode st LabelItem.placeholder).ops = st.ops) := by
  refine ⟨fun idx => rfl, rfl, rfl, rfl, ?_⟩
  intro h
  simp [generate_step, h, draw_label]

/-- Witness for `placeholder_transparency`: the fresh state on Avery 5160 is
not at a page boundary, and processing a placeholder leaves the trace empty. -/
theorem placeholder_transparency_witness :
    (⟨0, 0, []⟩ : GenState).current_label ≠ labels_per_page avery5160
    ∧ (generate_step trivialEnv avery5160 (("sets").toList) ⟨0, 0, []⟩
        LabelItem.placeholder).ops = (⟨0, 0, []⟩ : GenState).ops :=
  ⟨by decide, (placeholder_transparency trivialEnv avery5160 (("sets").toList)
      ⟨0, 0, []⟩ sampleSet).2.2.2.2 (by decide)⟩

/-- Popping the guarded oldest entry `n` times drops the `n` oldest entries. -/
lemma pop_oldest_iter_eq_drop {α : Type} (n : Nat) (c : List (PyStr × α)) :
    pop_oldest_iter n c = c.drop n := by
  induction n generalizing c with
  | zero => rfl
  | succ n ih =>
    cases c with
    | nil => simp [pop_oldest_iter, pop_oldest, ih]
    | cons e rest => simp [pop_oldest_iter, pop_oldest, ih]

/-- C8 (amended): whenever the cache's size exceeds 80% of its configured
maximum, the batch eviction of `generate` removes the `cache_max_size // 2`
OLDEST entries — half of the configured maximum, not half of the cache's
current entries, and not a single entry — keeping a suffix made of the most
recently used entries. -/
theorem svg_cache_batch_eviction {α : Type} (cache_max_size : Nat)
    (cache : List (PyStr × α))
    (htrig : (cache_max_size : ℚ) * 0.8 < (cache.length : ℚ)) :
    svg_cache_maintenance cache_max_size cache = cache.drop (cache_max_size / 2)
    ∧ svg_cache_maintenance cache_max_size cache <:+ cache := by
  have hmaint : svg_cache_maintenance cache_max_size cache
      = pop_oldest_iter (cache_max_size / 2) cache := by
    unfold svg_cache_maintenance
    rw [if_pos htrig]
  rw [hmaint, pop_oldest_iter_eq_drop]
  exact ⟨rfl, List.drop_suffix _ _⟩

/-- Witness for `svg_cache_batch_eviction`: maximum 12, a ten-entry cache. -/
theorem svg_cache_batch_eviction_witness :
    ((12 : ℚ) * 0.8 < (cache_ten.length : ℚ))
    ∧ svg_cache_maintenance 12 cache_ten = cache_ten.drop 6
    ∧ svg_cache_maintenance 12 cache_ten <:+ cache_ten := by
  have hlen : cache_ten.length = 10 := by decide
  have htrig : (12 : ℚ) * 0.8 < (cache_ten.length : ℚ) := by
    rw [hlen]
    norm_num
  have h := svg_cache_batch_eviction 12 cache_ten htrig
  exact ⟨htrig, h.1, h.2⟩

/-- Counterexample to C8 as stated: with configured maximum 12 and a cache of
10 entries the trigger fires (10 > 9.6), but the eviction removes 6 entries —
`12 // 2`, more than the "oldest half" (5) of the cache's 10 entries. -/
theorem svg_cache_half_eviction_counterexample :
    ((12 : ℚ) * 0.8 < (cache_ten.length : ℚ))
    ∧ cache_ten.length - (svg_cache_maintenance 12 cache_ten).length = 6
    ∧ cache_ten.length - (svg_cache_maintenance 12 cache_ten).length
        ≠ cache_ten.length / 2 := by
  have hlen : cache_ten.length = 10 := by decide
  have htrig : (12 : ℚ) * 0.8 < (cache_ten.length : ℚ) := by
    rw [hlen]
    norm_num
  have hdlen : (svg_cache_maintenance 12 cache_ten).length = 4 := by
    unfold svg_cache_maintenance
    split
    · rw [pop_oldest_iter_eq_drop, List.length_drop, hlen]
    · rename_i hcond
      exact absurd (by exact_mod_cast htrig) hcond
  refine ⟨htrig, ?_, ?_⟩
  · rw [hdlen, hlen]
  · rw [hdlen, hlen]
    omega

/-- Assigning a key to an `OrderedDict` grows it by at most one entry. -/
lemma ordered_dict_set_length {α : Type} (key : PyStr) (val : α)
    (c : List (PyStr × α)) :
    (ordered_dict_set key val c).length ≤ c.length + 1 := by
  induction c with
  | nil => simp [ordered_dict_set]
  | cons e rest ih =>
    obtain ⟨ek, ev⟩ := e
    simp only [ordered_dict_set]
    split
    · simp
    · simp only [List.length_cons]
      omega

/-- `move_to_end` permutes the cache without changing its size. -/
lemma move_to_end_length {α : Type} (key : PyStr) (c : List (PyStr × α)) :
    (move_to_end key c).length = c.length := by
  unfold move_to_end
  cases hfind : c.find? (fun e => e.1 == key) with
  | none => rfl
  | some e =>
    have hmem : e ∈ c := List.mem_of_find?_eq_some hfind
    have hp : (fun x : PyStr × α => x.1 == key) e = true := by
      simpa using List.find?_some hfind
    have hlen := @List.length_eraseP_add_one _ (fun x : PyStr × α => x.1 == key)
      c e hmem hp
    simp only [List.length_append, List.length_singleton]
    omega

/-- C9: the SVG drawing cache never exceeds its configured maximum: assuming a
positive maximum and the bound before the operation, an insertion via
`_cache_svg_drawing` succeeds (evicting the least-recently-used entry first
when at capacity) and preserves the bound, and so do a lookup with
move-to-end and the batch purge. -/
theorem svg_cache_size_bound {α : Type} (cache_max_size : Nat) (key : PyStr)
    (val : α) (cache : List (PyStr × α)) (hpos : 0 < cache_max_size)
    (hbound : cache.length ≤ cache_max_size) :
    (∃ cache2, cache_svg_drawing cache_max_size key val cache = some cache2
        ∧ cache2.length ≤ cache_max_size)
    ∧ (get_cached_svg_drawing key cache).2.length ≤ cache_max_size
    ∧ (svg_cache_maintenance cache_max_size cache).length ≤ cache_max_size := by
  refine ⟨?_, ?_, ?_⟩
  · unfold cache_svg_drawing
    by_cases hfull : cache_max_size ≤ cache.length
    · rw [if_pos hfull]
      cases cache with
      | nil =>
        exfalso
        simp only [List.length_nil] at hfull
        omega
      | cons e rest =>
        refine ⟨ordered_dict_set key val rest, rfl, ?_⟩
        have hset := ordered_dict_set_length key val rest
        have hr : (e :: rest).length = rest.length + 1 := by simp
        omega
    · rw [if_neg hfull]
      refine ⟨ordered_dict_set key val cache, rfl, ?_⟩
      have hset := ordered_dict_set_length key val cache
      omega
  · unfold get_cached_svg_drawing
    split
    · show (move_to_end key cache).length ≤ cache_max_size
      rw [move_to_end_length]
      exact hbound
    · exact hbound
  · unfold svg_cache_maintenance
    split
    · rw [pop_oldest_iter_eq_drop, List.length_drop]
      omega
    · exact hbound

/-- Witness for `svg_cache_size_bound`: maximum 1, a full one-entry cache,
inserting a fresh key. -/
theorem svg_cache_size_bound_witness :
    0 < 1
    ∧ ([(("k0").toList, (0 : Nat))] : List (PyStr × Nat)).length ≤ 1
    ∧ ((∃ cache2, cache_svg_drawing 1 (("k1").toList) (1 : Nat)
          [(("k0").toList, (0 : Nat))] = some cache2 ∧ cache2.length ≤ 1)
        ∧ (get_cached_svg_drawing (("k1").toList)
            [(("k0").toList, (0 : Nat))]).2.length ≤ 1
        ∧ (svg_cache_maintenance 1 [(("k0").toList, (0 : Nat))]).length ≤ 1) :=
  ⟨by decide, by decide,
   svg_cache_size_bound 1 (("k1").toList) 1 [(("k0").toList, 0)]
     (by decide) (by decide)⟩
